import Mathlib

/-!
Shallow embedding of the deletion-lifecycle reconciler of NodeWebhooks:
the ordered cleanup-plugin registry (pkg/plugins/plugin.go, the version
holding a pluginOrder slice) and the node deletion watcher
(pkg/watcher/watcher.go), with theorems settling the frozen claims.
-/

/-- The finalizer the watcher manages (pkg/constants: FinalizerName). -/
def FinalizerName : String := "infra.894.io/node-cleanup"

/-- The emergency skip directive key (pkg/constants: SkipCleanupAnnotation). -/
def SkipCleanupKey : String := "infra.894.io/skip-cleanup"

/-- A Kubernetes node, restricted to the fields the reconciler reads:
name, DeletionTimestamp (None models a nil timestamp), Finalizers and
the metadata key-value pairs read through node.Annotations. -/
structure Node where
  name : String
  deletionTimestamp : Option Nat
  finalizers : List String
  annots : List (String × String)
deriving DecidableEq, Repr

/-- Go map read with the zero-value default: node.Annotations[key]. -/
def Node.annotGet (node : Node) (key : String) : String :=
  (List.lookup key node.annots).getD ""

/-- A cleanup plugin (plugin.go: the Plugin interface): a name, the
ShouldRun predicate and the Cleanup operation, which may fail with an
error message. -/
structure Plugin where
  name : String
  shouldRun : Node → Bool
  cleanup : Node → Except String Unit

/-- Go map assignment m[k] = v on an association-list model: replaces the
binding when the key is present, appends it otherwise. -/
def mapInsert {α : Type} (m : List (String × α)) (k : String) (v : α) :
    List (String × α) :=
  match m with
  | [] => [(k, v)]
  | (k0, v0) :: rest =>
      if k0 == k then (k, v) :: rest else (k0, v0) :: mapInsert rest k v

/-- The plugin registry (plugin.go: Registry): the plugins map, the
enabled map and the pluginOrder slice recording enablement order. -/
structure Registry where
  plugins : List (String × Plugin)
  enabled : List (String × Bool)
  pluginOrder : List String

/-- plugin.go: NewRegistry. -/
def newRegistry : Registry :=
  { plugins := [], enabled := [], pluginOrder := [] }

/-- plugin.go: Registry.Register stores the plugin under its name. -/
def Registry.register (r : Registry) (p : Plugin) : Registry :=
  { r with plugins := mapInsert r.plugins p.name p }

/-- Registering a list of plugins in the given order, starting from the
fresh registry. -/
def registerAll (ps : List Plugin) : Registry :=
  ps.foldl (fun r p => r.register p) newRegistry

/-- plugin.go: Registry.Enable. Fails when the name is unregistered;
otherwise marks the name enabled and appends it to pluginOrder. -/
def Registry.enable (r : Registry) (name : String) : Except String Registry :=
  match List.lookup name r.plugins with
  | none => .error ("plugin " ++ name ++ " not found")
  | some _ =>
      .ok { r with
              enabled := mapInsert r.enabled name true,
              pluginOrder := r.pluginOrder ++ [name] }

/-- plugin.go: Registry.Disable sets enabled[name] = false and leaves
pluginOrder untouched. -/
def Registry.disable (r : Registry) (name : String) : Registry :=
  { r with enabled := mapInsert r.enabled name false }

/-- The error returned when a plugin fails: fmt.Errorf wraps the cause
with the plugin name ("plugin %s failed: %w"). -/
structure RunError where
  plugin : String
  cause : String
deriving DecidableEq, Repr

/-- The loop body of Registry.RunAll over the pluginOrder slice. Returns
the names whose Cleanup was invoked, in invocation order, together with
the overall result. A name missing from the plugins map is skipped (the
loop continues), a plugin whose ShouldRun returns false is skipped, and
the first Cleanup error aborts the walk. -/
def runAllAux (plugins : List (String × Plugin)) (node : Node) :
    List String → List String × Except RunError Unit
  | [] => ([], .ok ())
  | nm :: rest =>
      match List.lookup nm plugins with
      | none => runAllAux plugins node rest
      | some p =>
          if p.shouldRun node then
            match p.cleanup node with
            | .error e => ([nm], .error ⟨nm, e⟩)
            | .ok _ =>
                let r := runAllAux plugins node rest
                (nm :: r.1, r.2)
          else runAllAux plugins node rest

/-- plugin.go: Registry.RunAll walks pluginOrder (not the plugins map and
not the enabled map), running each applicable plugin. -/
def Registry.runAll (r : Registry) (node : Node) :
    List String × Except RunError Unit :=
  runAllAux r.plugins node r.pluginOrder

/-- The names in the given order that RunAll would invoke: registered and
applicable to the node. -/
def ranNames (plugins : List (String × Plugin)) (node : Node)
    (order : List String) : List String :=
  order.filter (fun nm =>
    match List.lookup nm plugins with
    | some p => p.shouldRun node
    | none => false)

/-- Whether a name in the order runs cleanly for the node: unregistered or
inapplicable names are skipped, and an applicable plugin must succeed. -/
def runsClean (plugins : List (String × Plugin)) (node : Node)
    (nm : String) : Bool :=
  match List.lookup nm plugins with
  | none => true
  | some p =>
      if p.shouldRun node then
        match p.cleanup node with
        | .ok _ => true
        | .error _ => false
      else true

/-- watcher.go: containsFinalizer loops over the list comparing each entry
to the target. -/
def containsFinalizer (finalizers : List String) (target : String) : Bool :=
  finalizers.any (fun f => f == target)

/-- watcher.go: removeFinalizer builds the new finalizers list by keeping
every entry different from FinalizerName; the merge patch it issues sets
metadata.finalizers to exactly this list. We model the patch by its
finalizers content. -/
def removeFinalizer (node : Node) : List String :=
  node.finalizers.filter (fun f => f != FinalizerName)

/-- watcher.go: addFinalizer copies the current list and appends
FinalizerName; the merge patch sets metadata.finalizers to this list. -/
def addFinalizer (node : Node) : List String :=
  node.finalizers ++ [FinalizerName]

/-- watcher.go: ensureFinalizer returns without patching when the node is
being deleted or already carries the finalizer; otherwise it dispatches
the addFinalizer patch. The result is the finalizers content of the patch
the call issues, or none when it issues no patch. -/
def ensureFinalizer (node : Node) : Option (List String) :=
  if node.deletionTimestamp.isSome then none
  else if containsFinalizer node.finalizers FinalizerName then none
  else some (addFinalizer node)

/-- The observable result of one processNode call. -/
inductive ProcessStatus where
  | fetchFailed
  | abandoned
  | skipBypass
  | cleanupFailed (e : RunError)
  | refetchFailed
  | completed
deriving DecidableEq, Repr

/-- What one processNode call did: the plugin cleanups it invoked in
order, the finalizers content of the patch it issued (none when it issued
no patch), and how it returned. -/
structure ProcessOutcome where
  invoked : List String
  patch : Option (List String)
  status : ProcessStatus
deriving DecidableEq, Repr

/-- watcher.go: the decision logic of processNode, parameterised by the
two Get calls it performs (fetch1 at entry, fetch2 before finalizer
removal; none models a Get error). In order: fetch, re-validate the
deletion timestamp and finalizer, check the skip directive against the
exact string true, run the registry, and on success re-fetch and remove
the finalizer. On cleanup failure a delayed retry is scheduled and no
patch is issued. -/
def processNodePure (reg : Registry) (fetch1 fetch2 : Option Node) :
    ProcessOutcome :=
  match fetch1 with
  | none => ⟨[], none, .fetchFailed⟩
  | some node =>
      if node.deletionTimestamp.isNone ||
          !containsFinalizer node.finalizers FinalizerName then
        ⟨[], none, .abandoned⟩
      else if node.annotGet SkipCleanupKey == "true" then
        ⟨[], some (removeFinalizer node), .skipBypass⟩
      else
        match reg.runAll node with
        | (tr, .error e) => ⟨tr, none, .cleanupFailed e⟩
        | (tr, .ok _) =>
            match fetch2 with
            | none => ⟨tr, none, .refetchFailed⟩
            | some node2 => ⟨tr, some (removeFinalizer node2), .completed⟩

/-- The mutable watcher state shared between the event handlers, the
worker loop and the retry timers: the processing set (sync.Map of node
names), the work queue (buffered channel of names), the names with a
pending retry timer, and two logs recording the cleanups invoked and the
finalizer patches issued. -/
structure WState where
  processing : List String
  queue : List String
  retryPending : List String
  invokedLog : List String
  patches : List (String × List String)
deriving DecidableEq, Repr

/-- The initial watcher state: empty set, empty queue, no timers. -/
def initWState : WState :=
  { processing := [], queue := [], retryPending := [],
    invokedLog := [], patches := [] }

/-- watcher.go: enqueueIfDeleting. Nodes not being deleted or without the
finalizer are ignored; LoadOrStore claims the name in the processing set
and drops the event when it was already claimed; otherwise the name is
pushed onto the work queue. -/
def enqueueIfDeleting (s : WState) (node : Node) : WState :=
  if node.deletionTimestamp.isNone then s
  else if !containsFinalizer node.finalizers FinalizerName then s
  else if s.processing.contains node.name then s
  else { s with processing := node.name :: s.processing,
                queue := s.queue ++ [node.name] }

/-- One atomic step of the watcher: an informer update event for a
deleting node, the worker dequeuing and processing one name (with the two
Get results it will observe), or a pending retry timer firing for a name
(with the Get result the retry goroutine observes). -/
inductive Step where
  | event (node : Node)
  | work (fetch1 fetch2 : Option Node)
  | retryFire (nodeName : String) (refetch : Option Node)

/-- The watcher transition function. A work step dequeues the head name
and runs processNode on it: the deferred processing.Delete removes the
name on every return path, and a cleanup failure additionally leaves a
pending retry timer behind. A retryFire step models the retry goroutine
after its sleep: it deletes the name from the processing set, re-fetches,
and re-applies enqueueIfDeleting to the fetched node. -/
def stepFn (reg : Registry) (s : WState) : Step → WState
  | .event node => enqueueIfDeleting s node
  | .work fetch1 fetch2 =>
      match s.queue with
      | [] => s
      | nodeName :: rest =>
          let out := processNodePure reg fetch1 fetch2
          let s1 : WState :=
            { s with
                queue := rest,
                processing := s.processing.erase nodeName,
                invokedLog := s.invokedLog ++ out.invoked,
                patches := s.patches ++
                  (match out.patch with
                   | some fs => [(nodeName, fs)]
                   | none => []) }
          match out.status with
          | .cleanupFailed _ =>
              { s1 with retryPending := s1.retryPending ++ [nodeName] }
          | _ => s1
  | .retryFire nodeName refetch =>
      if s.retryPending.contains nodeName then
        let s1 : WState :=
          { s with retryPending := s.retryPending.erase nodeName,
                   processing := s.processing.erase nodeName }
        match refetch with
        | some node => enqueueIfDeleting s1 node
        | none => s1
      else s

/-- Running a schedule of steps from the initial watcher state. -/
def runSteps (reg : Registry) (steps : List Step) : WState :=
  steps.foldl (stepFn reg) initWState

/-! Concrete fixtures used to evaluate the model on explicit inputs. -/

/-- A plugin that applies to every node and always succeeds. -/
def pluginP : Plugin := ⟨"p", fun _ => true, fun _ => .ok ()⟩

/-- A plugin that applies to every node and always fails. -/
def pluginFail : Plugin := ⟨"q", fun _ => true, fun _ => .error "boom"⟩

/-- A node in deletion with the protective finalizer and no skip key. -/
def nodeW : Node := ⟨"n1", some 0, [FinalizerName], []⟩

/-- The registry after Register(p), Enable(p), Disable(p): the name p is
marked disabled but remains in pluginOrder. -/
def regC2 : Registry :=
  match (registerAll [pluginP]).enable "p" with
  | .ok r => r.disable "p"
  | .error _ => newRegistry

/-- The registry after Register(q), Enable(q), where the cleanup of q
always fails. -/
def regC4 : Registry :=
  match (registerAll [pluginFail]).enable "q" with
  | .ok r => r
  | .error _ => newRegistry

/-- A schedule reaching a duplicated queue entry: a deletion event
enqueues n1; the worker processes it and the cleanup fails, scheduling a
retry while the deferred delete releases the in-flight entry; a second
update event re-enqueues n1 during the backoff window; the retry timer
then fires, deletes n1 from the processing set and enqueues it again. -/
def stepsC4 : List Step :=
  [.event nodeW, .work (some nodeW) none, .event nodeW,
   .retryFire "n1" (some nodeW)]

/-- Always-succeeding plugin named a. -/
def plA : Plugin := ⟨"a", fun _ => true, fun _ => .ok ()⟩

/-- Always-succeeding plugin named b. -/
def plB : Plugin := ⟨"b", fun _ => true, fun _ => .ok ()⟩

/-- Always-succeeding plugin named c. -/
def plC : Plugin := ⟨"c", fun _ => true, fun _ => .ok ()⟩

/-- Always-failing plugin named b. -/
def plBfail : Plugin := ⟨"b", fun _ => true, fun _ => .error "boom"⟩

/-- Registration deliberately in the order c, a, b; then Enable(a). -/
def regW1a : Registry :=
  match (registerAll [plC, plA, plB]).enable "a" with
  | .ok r => r
  | .error _ => newRegistry

/-- The previous registry after Enable(b). -/
def regW1b : Registry :=
  match regW1a.enable "b" with
  | .ok r => r
  | .error _ => newRegistry

/-- The previous registry after Enable(c). -/
def regW1c : Registry :=
  match regW1b.enable "c" with
  | .ok r => r
  | .error _ => newRegistry

/-- A registry whose order is a, b, c, where b fails. -/
def regW3 : Registry :=
  ⟨[("a", plA), ("b", plBfail), ("c", plC)],
   [("a", true), ("b", true), ("c", true)], ["a", "b", "c"]⟩

/-- A registry whose order is a, c, where every plugin succeeds. -/
def regW3ok : Registry :=
  ⟨[("a", plA), ("c", plC)], [("a", true), ("c", true)], ["a", "c"]⟩

/-- A deleting node carrying the skip key with the value true. -/
def nodeSkip : Node :=
  ⟨"n2", some 0, [FinalizerName], [(SkipCleanupKey, "true")]⟩

/-- A deleting node carrying the skip key with the value yes. -/
def nodeYes : Node :=
  ⟨"n3", some 0, [FinalizerName], [(SkipCleanupKey, "yes")]⟩

/-- A node that lost the protective finalizer. -/
def nodeNoFin : Node := ⟨"n4", some 0, ["other"], []⟩

/-- A node with another finalizer in front of the protective one. -/
def nodeTwoFin : Node := ⟨"n5", none, ["other", FinalizerName], []⟩

/-- A watcher state whose queue holds n4 with further names behind it. -/
def sW8 : WState :=
  { processing := ["n4", "n9"], queue := ["n4", "n9"],
    retryPending := [], invokedLog := ["a"], patches := [("n0", [])] }

/-! Helper lemmas shared by the claim theorems. -/

/-- A successful Enable leaves the plugins map unchanged, appends the name
to pluginOrder, and marks it enabled. -/
theorem enable_ok {r r2 : Registry} {nm : String}
    (h : r.enable nm = .ok r2) :
    r2.plugins = r.plugins ∧ r2.pluginOrder = r.pluginOrder ++ [nm] := by
  unfold Registry.enable at h
  cases hl : List.lookup nm r.plugins with
  | none => rw [hl] at h; exact absurd h (by simp)
  | some p =>
      rw [hl] at h
      cases h
      exact ⟨rfl, rfl⟩

/-- Register never touches pluginOrder, so a fresh registry filled by
registerAll has an empty order. -/
theorem registerAll_pluginOrder (ps : List Plugin) :
    (registerAll ps).pluginOrder = [] := by
  suffices h : ∀ (l : List Plugin) (r : Registry),
      (l.foldl (fun r p => r.register p) r).pluginOrder = r.pluginOrder by
    exact h ps newRegistry
  intro l
  induction l with
  | nil => intro r; rfl
  | cons p rest ih => intro r; exact ih (r.register p)

/-- Walk step: an unregistered name in the order is skipped. -/
theorem runAllAux_cons_none {plugins : List (String × Plugin)} {node : Node}
    {nm : String} (rest : List String)
    (hl : List.lookup nm plugins = none) :
    runAllAux plugins node (nm :: rest) = runAllAux plugins node rest := by
  simp [runAllAux, hl]

/-- Walk step: an inapplicable plugin is skipped. -/
theorem runAllAux_cons_skip {plugins : List (String × Plugin)} {node : Node}
    {nm : String} {p : Plugin} (rest : List String)
    (hl : List.lookup nm plugins = some p)
    (hs : p.shouldRun node = false) :
    runAllAux plugins node (nm :: rest) = runAllAux plugins node rest := by
  simp [runAllAux, hl, hs]

/-- Walk step: an applicable plugin that succeeds is invoked and the walk
continues. -/
theorem runAllAux_cons_ok {plugins : List (String × Plugin)} {node : Node}
    {nm : String} {p : Plugin} {u : Unit} (rest : List String)
    (hl : List.lookup nm plugins = some p)
    (hs : p.shouldRun node = true)
    (hc : p.cleanup node = Except.ok u) :
    runAllAux plugins node (nm :: rest) =
      (nm :: (runAllAux plugins node rest).1,
       (runAllAux plugins node rest).2) := by
  simp [runAllAux, hl, hs, hc]

/-- Walk step: an applicable plugin that fails is invoked and the walk
aborts with the wrapped error. -/
theorem runAllAux_cons_err {plugins : List (String × Plugin)} {node : Node}
    {nm : String} {p : Plugin} {e : String} (rest : List String)
    (hl : List.lookup nm plugins = some p)
    (hs : p.shouldRun node = true)
    (hc : p.cleanup node = Except.error e) :
    runAllAux plugins node (nm :: rest) = ([nm], Except.error ⟨nm, e⟩) := by
  simp [runAllAux, hl, hs, hc]

/-- ranNames step for an unregistered name. -/
theorem ranNames_cons_none {plugins : List (String × Plugin)} {node : Node}
    {nm : String} (order : List String)
    (hl : List.lookup nm plugins = none) :
    ranNames plugins node (nm :: order) = ranNames plugins node order := by
  simp [ranNames, List.filter_cons, hl]

/-- ranNames step for an inapplicable plugin. -/
theorem ranNames_cons_skip {plugins : List (String × Plugin)} {node : Node}
    {nm : String} {p : Plugin} (order : List String)
    (hl : List.lookup nm plugins = some p)
    (hs : p.shouldRun node = false) :
    ranNames plugins node (nm :: order) = ranNames plugins node order := by
  simp [ranNames, List.filter_cons, hl, hs]

/-- ranNames step for an applicable plugin. -/
theorem ranNames_cons_run {plugins : List (String × Plugin)} {node : Node}
    {nm : String} {p : Plugin} (order : List String)
    (hl : List.lookup nm plugins = some p)
    (hs : p.shouldRun node = true) :
    ranNames plugins node (nm :: order) =
      nm :: ranNames plugins node order := by
  simp [ranNames, List.filter_cons, hl, hs]

/-- A clean applicable registered name has a succeeding cleanup. -/
theorem runsClean_ok {plugins : List (String × Plugin)} {node : Node}
    {nm : String} {p : Plugin}
    (hl : List.lookup nm plugins = some p)
    (hs : p.shouldRun node = true)
    (hrc : runsClean plugins node nm = true) :
    p.cleanup node = Except.ok () := by
  simp only [runsClean, hl, hs, if_true] at hrc
  cases hc : p.cleanup node with
  | ok u => cases u; rfl
  | error e => rw [hc] at hrc; simp at hrc

/-- When every name in the order runs cleanly, the RunAll walk invokes
exactly the registered applicable names and succeeds. -/
theorem runAllAux_clean (plugins : List (String × Plugin)) (node : Node) :
    ∀ order : List String, order.all (runsClean plugins node) = true →
      runAllAux plugins node order =
        (ranNames plugins node order, Except.ok ()) := by
  intro order
  induction order with
  | nil => intro _; rfl
  | cons nm rest ih =>
      intro h
      rw [List.all_cons, Bool.and_eq_true] at h
      obtain ⟨hnm, hrest⟩ := h
      cases hl : List.lookup nm plugins with
      | none =>
          rw [runAllAux_cons_none rest hl, ranNames_cons_none rest hl]
          exact ih hrest
      | some p =>
          cases hs : p.shouldRun node with
          | false =>
              rw [runAllAux_cons_skip rest hl hs,
                  ranNames_cons_skip rest hl hs]
              exact ih hrest
          | true =>
              have hc := runsClean_ok hl hs hnm
              rw [runAllAux_cons_ok rest hl hs hc,
                  ranNames_cons_run rest hl hs, ih hrest]

/-- When every name before b runs cleanly and the cleanup of b fails,
the RunAll walk invokes the applicable prefix then b, aborts there and
returns the wrapped error naming b. -/
theorem runAllAux_failfast (plugins : List (String × Plugin)) (node : Node)
    (b : String) (post : List String) (pb : Plugin) (e : String)
    (hlb : List.lookup b plugins = some pb)
    (hsb : pb.shouldRun node = true)
    (hcb : pb.cleanup node = Except.error e) :
    ∀ pre : List String, pre.all (runsClean plugins node) = true →
      runAllAux plugins node (pre ++ b :: post) =
        (ranNames plugins node pre ++ [b], Except.error ⟨b, e⟩) := by
  intro pre
  induction pre with
  | nil =>
      intro _
      rw [List.nil_append, runAllAux_cons_err post hlb hsb hcb]
      rfl
  | cons nm rest ih =>
      intro h
      rw [List.all_cons, Bool.and_eq_true] at h
      obtain ⟨hnm, hrest⟩ := h
      rw [List.cons_append]
      cases hl : List.lookup nm plugins with
      | none =>
          rw [runAllAux_cons_none _ hl, ranNames_cons_none rest hl]
          exact ih hrest
      | some p =>
          cases hs : p.shouldRun node with
          | false =>
              rw [runAllAux_cons_skip _ hl hs, ranNames_cons_skip rest hl hs]
              exact ih hrest
          | true =>
              have hc := runsClean_ok hl hs hnm
              rw [runAllAux_cons_ok _ hl hs hc, ranNames_cons_run rest hl hs,
                  ih hrest]
              rfl

/-! Claim theorems. -/

/-- Claim C1: for every registration order and every node, if actions a,
b, c were enabled in that order and all three apply to the node (with a
and b succeeding so the walk reaches c), RunAll invokes their cleanup
operations in exactly the order a, b, c. Registration order enters only
through the lookups, so any ps yielding the same lookups gives the same
trace. -/
theorem c1_runAll_invokes_in_enable_order
    (ps : List Plugin) (a b c : String) (pa pb pc : Plugin) (n : Node)
    (r1 r2 r3 : Registry)
    (hla : List.lookup a (registerAll ps).plugins = some pa)
    (hlb : List.lookup b (registerAll ps).plugins = some pb)
    (hlc : List.lookup c (registerAll ps).plugins = some pc)
    (h1 : (registerAll ps).enable a = .ok r1)
    (h2 : r1.enable b = .ok r2)
    (h3 : r2.enable c = .ok r3)
    (hsa : pa.shouldRun n = true) (hsb : pb.shouldRun n = true)
    (hsc : pc.shouldRun n = true)
    (hca : pa.cleanup n = Except.ok ()) (hcb : pb.cleanup n = Except.ok ()) :
    (r3.runAll n).1 = [a, b, c] := by
  obtain ⟨hp1, ho1⟩ := enable_ok h1
  obtain ⟨hp2, ho2⟩ := enable_ok h2
  obtain ⟨hp3, ho3⟩ := enable_ok h3
  have hp : r3.plugins = (registerAll ps).plugins := by rw [hp3, hp2, hp1]
  have ho : r3.pluginOrder = [a, b, c] := by
    rw [ho3, ho2, ho1, registerAll_pluginOrder]
    rfl
  unfold Registry.runAll
  rw [hp, ho]
  cases hcc : pc.cleanup n with
  | ok u =>
      rw [runAllAux_cons_ok [b, c] hla hsa hca,
          runAllAux_cons_ok [c] hlb hsb hcb,
          runAllAux_cons_ok [] hlc hsc hcc]
      rfl
  | error e =>
      rw [runAllAux_cons_ok [b, c] hla hsa hca,
          runAllAux_cons_ok [c] hlb hsb hcb,
          runAllAux_cons_err [] hlc hsc hcc]

/-- Witness for C1: plugins registered in the order c, a, b, enabled in
the order a, b, c; the trace is a, b, c. -/
theorem c1_witness_concrete : (regW1c.runAll nodeW).1 = ["a", "b", "c"] :=
  c1_runAll_invokes_in_enable_order [plC, plA, plB] "a" "b" "c" plA plB plC
    nodeW regW1a regW1b regW1c rfl rfl rfl rfl rfl rfl rfl rfl rfl rfl rfl

/-- Claim C2, code-bug evidence: after Register(p), Enable(p), Disable(p),
the enabled map holds false for p, yet RunAll still invokes the cleanup
of p, because the RunAll loop walks pluginOrder and never consults the
enabled map. -/
theorem c2_disabled_plugin_still_runs :
    List.lookup "p" regC2.enabled = some false ∧
    (regC2.runAll nodeW).1 = ["p"] := by decide

/-- Claim C3: if the first failing action in the order is b, RunAll
invokes the applicable names before b, then b, aborts without touching
anything after b, and returns the error naming b that wraps the cause;
and when no applicable action fails, RunAll returns success. -/
theorem c3_failfast_and_success (r : Registry) (n : Node) :
    (∀ (pre : List String) (b : String) (post : List String) (pb : Plugin)
        (e : String),
        r.pluginOrder = pre ++ b :: post →
        List.lookup b r.plugins = some pb →
        pb.shouldRun n = true →
        pb.cleanup n = Except.error e →
        pre.all (runsClean r.plugins n) = true →
        r.runAll n = (ranNames r.plugins n pre ++ [b],
                      Except.error ⟨b, e⟩)) ∧
    (r.pluginOrder.all (runsClean r.plugins n) = true →
      (r.runAll n).2 = Except.ok ()) := by
  constructor
  · intro pre b post pb e horder hlb hsb hcb hpre
    unfold Registry.runAll
    rw [horder]
    exact runAllAux_failfast r.plugins n b post pb e hlb hsb hcb pre hpre
  · intro hall
    unfold Registry.runAll
    rw [runAllAux_clean r.plugins n r.pluginOrder hall]

/-- Witness for C3: with order a, b, c where b fails, the run stops after
a and b with the error naming b; with order a, c all clean, the run
succeeds. -/
theorem c3_witness_concrete :
    regW3.runAll nodeW = (["a", "b"], Except.error ⟨"b", "boom"⟩) ∧
    (regW3ok.runAll nodeW).2 = Except.ok () :=
  ⟨(c3_failfast_and_success regW3 nodeW).1 ["a"] "b" ["c"] plBfail "boom"
      rfl rfl rfl rfl rfl,
   (c3_failfast_and_success regW3ok nodeW).2 rfl⟩

/-- Claim C9: Enable is not idempotent. For a registered name, two Enable
calls both succeed, the name is appended to pluginOrder twice, and one
RunAll invokes its cleanup twice. -/
theorem c9_enable_appends_duplicate (r0 : Registry) (a : String)
    (p : Plugin) (n : Node)
    (hl : List.lookup a r0.plugins = some p)
    (h0 : r0.pluginOrder = [])
    (hs : p.shouldRun n = true)
    (hc : p.cleanup n = Except.ok ()) :
    ∃ r1 r2 : Registry, r0.enable a = .ok r1 ∧ r1.enable a = .ok r2 ∧
      r2.pluginOrder = [a, a] ∧ (r2.runAll n).1 = [a, a] := by
  refine ⟨{ r0 with
              enabled := mapInsert r0.enabled a true
              pluginOrder := r0.pluginOrder ++ [a] },
          { r0 with
              enabled := mapInsert (mapInsert r0.enabled a true) a true
              pluginOrder := (r0.pluginOrder ++ [a]) ++ [a] },
          ?_, ?_, ?_, ?_⟩
  · simp only [Registry.enable]
    rw [hl]
  · simp only [Registry.enable]
    rw [hl]
  · rw [h0]
    rfl
  · have hclean : ([a, a].all (runsClean r0.plugins n)) = true := by
      simp [List.all_cons, runsClean, hl, hs, hc]
    have hrun := runAllAux_clean r0.plugins n [a, a] hclean
    have horder : (r0.pluginOrder ++ [a]) ++ [a] = [a, a] := by
      rw [h0]
      rfl
    simp only [Registry.runAll]
    rw [horder, hrun]
    simp [ranNames, List.filter_cons, hl, hs]

/-- Witness for C9 at a one-plugin registry. -/
theorem c9_witness_concrete :
    ∃ r1 r2 : Registry, (registerAll [pluginP]).enable "p" = .ok r1 ∧
      r1.enable "p" = .ok r2 ∧ r2.pluginOrder = ["p", "p"] ∧
      (r2.runAll nodeW).1 = ["p", "p"] :=
  c9_enable_appends_duplicate (registerAll [pluginP]) "p" pluginP nodeW
    rfl rfl rfl rfl

/-- Claim C4, code-bug evidence: starting from the empty watcher state,
the schedule event, work(cleanup fails), event during the backoff window,
retry fires reaches a state whose queue holds the same node name twice,
so two cleanup attempts are queued for one node. The deferred delete in
processNode releases the in-flight entry on the failure return path
before the retry timer runs, so the set no longer blocks the duplicate. -/
theorem c4_duplicate_queued_attempts :
    (runSteps regC4 stepsC4).queue = ["n1", "n1"] ∧
    (runSteps regC4 stepsC4).processing = ["n1"] := by decide

/-- Claim C5: a node that passes re-validation and carries the skip
directive with value true makes processNode invoke no cleanup and issue
exactly the finalizer-removal patch; the check precedes every plugin
call, so the invoked list is empty. -/
theorem c5_skip_bypasses_cleanup (reg : Registry) (node : Node)
    (fetch2 : Option Node)
    (h1 : node.deletionTimestamp.isSome = true)
    (h2 : containsFinalizer node.finalizers FinalizerName = true)
    (h3 : node.annotGet SkipCleanupKey = "true") :
    processNodePure reg (some node) fetch2 =
      ⟨[], some (removeFinalizer node), ProcessStatus.skipBypass⟩ := by
  cases hd : node.deletionTimestamp with
  | none => rw [hd] at h1; exact absurd h1 (by simp)
  | some t => simp [processNodePure, hd, h2, h3]

/-- Witness for C5: skipping node n2 with one enabled plugin present. -/
theorem c5_witness_concrete :
    processNodePure regW3 (some nodeSkip) none =
      ⟨[], some [], ProcessStatus.skipBypass⟩ :=
  c5_skip_bypasses_cleanup regW3 nodeSkip none rfl rfl rfl

/-- Claim C6: on a node whose finalizer list is the other marker followed
by the protective marker, the removal patch keeps exactly the other
marker. -/
theorem c6_remove_only_protective_marker (node : Node) (other : String)
    (h1 : other ≠ FinalizerName)
    (h2 : node.finalizers = [other, FinalizerName]) :
    removeFinalizer node = [other] := by
  rw [removeFinalizer, h2]
  simp [List.filter_cons, h1]

/-- Witness for C6 on the node with finalizers other, protective. -/
theorem c6_witness_concrete : removeFinalizer nodeTwoFin = ["other"] :=
  c6_remove_only_protective_marker nodeTwoFin "other" (by decide) rfl

/-- Claim C7: ensureFinalizer on a node already carrying the protective
marker issues no patch at all, so no duplicate entry and no error can
arise. -/
theorem c7_ensure_is_noop_when_present (node : Node)
    (h : containsFinalizer node.finalizers FinalizerName = true) :
    ensureFinalizer node = none := by
  simp [ensureFinalizer, h]

/-- Witness for C7 on a node already carrying the marker. -/
theorem c7_witness_concrete : ensureFinalizer nodeTwoFin = none :=
  c7_ensure_is_noop_when_present nodeTwoFin rfl

/-- Claim C8: when the re-fetched node has a nil deletion timestamp or
has lost the protective marker, processNode invokes no cleanup, issues no
patch and returns without error, and the work step only pops the queue
and releases the in-flight entry, leaving all other watcher state
unchanged. -/
theorem c8_abandon_releases_and_frames (reg : Registry) (s : WState)
    (nodeName : String) (rest : List String) (node : Node)
    (fetch2 : Option Node)
    (hq : s.queue = nodeName :: rest)
    (hv : node.deletionTimestamp = none ∨
          containsFinalizer node.finalizers FinalizerName = false) :
    processNodePure reg (some node) fetch2 =
      ⟨[], none, ProcessStatus.abandoned⟩ ∧
    stepFn reg s (.work (some node) fetch2) =
      { s with queue := rest, processing := s.processing.erase nodeName } := by
  have hout : processNodePure reg (some node) fetch2 =
      ⟨[], none, ProcessStatus.abandoned⟩ := by
    cases hv with
    | inl h => simp [processNodePure, h]
    | inr h => simp [processNodePure, h]
  refine ⟨hout, ?_⟩
  simp [stepFn, hq, hout]

/-- Witness for C8: node n4 lost the marker; the step pops it and erases
it from the processing set while both logs stay unchanged. -/
theorem c8_witness_concrete :
    processNodePure regW3 (some nodeNoFin) none =
      ⟨[], none, ProcessStatus.abandoned⟩ ∧
    stepFn regW3 sW8 (.work (some nodeNoFin) none) =
      { sW8 with queue := ["n9"], processing := ["n9"] } :=
  c8_abandon_releases_and_frames regW3 sW8 "n4" ["n9"] nodeNoFin none rfl
    (Or.inr rfl)

/-- Claim C10: the skip override compares the directive against the exact
string true; a node whose skip key holds any other value goes down the
full cleanup path, invoking exactly what RunAll invokes, not the bypass. -/
theorem c10_skip_requires_exact_true (reg : Registry) (node : Node)
    (fetch2 : Option Node) (v : String)
    (h1 : node.deletionTimestamp.isSome = true)
    (h2 : containsFinalizer node.finalizers FinalizerName = true)
    (h3 : List.lookup SkipCleanupKey node.annots = some v)
    (h4 : v ≠ "true") :
    (processNodePure reg (some node) fetch2).invoked = (reg.runAll node).1 ∧
    (processNodePure reg (some node) fetch2).status ≠
      ProcessStatus.skipBypass := by
  cases hd : node.deletionTimestamp with
  | none => rw [hd] at h1; exact absurd h1 (by simp)
  | some t =>
      rcases hr : reg.runAll node with ⟨tr, res⟩
      cases res with
      | error e =>
          simp [processNodePure, hd, h2, Node.annotGet, h3, h4, hr]
      | ok u =>
          cases fetch2 with
          | none =>
              simp [processNodePure, hd, h2, Node.annotGet, h3, h4, hr]
          | some node2 =>
              simp [processNodePure, hd, h2, Node.annotGet, h3, h4, hr]

/-- Witness for C10: the value yes does not trigger the bypass. -/
theorem c10_witness_concrete :
    (processNodePure regW3 (some nodeYes) (some nodeYes)).invoked =
      (regW3.runAll nodeYes).1 ∧
    (processNodePure regW3 (some nodeYes) (some nodeYes)).status ≠
      ProcessStatus.skipBypass :=
  c10_skip_requires_exact_true regW3 nodeYes (some nodeYes) "yes" rfl rfl
    rfl (by decide)
